import Mathlib

/-!
Verification of the decision core of the `hido` decentralized-agent
orchestration framework: the Byzantine-fault-tolerant voting mechanism
(`src/consensus/voting.rs`), the ethical guardrail engine
(`src/consensus/guardrails.rs`), and the decision engine that fuses both
with an optional recommender signal (`src/consensus/engine.rs`).

Embedding conventions:
* Rust `f32`/`f64` values are modelled as exact rationals (`ℚ`); the
  algorithms only compare, add, multiply and divide these scores.
  Division is taken in the rational reading except where a zero divisor
  is reachable: the `F32` type and `ByzantineVoting.tallyF` refine the
  two division sites of the tally with the f32 special values (NaN and
  signed infinities).
* `HashMap` state is modelled as an association list with replacing
  insertion (`assocPut`) and lookup (`assocGet`); the tallies computed by
  the code are sums over all stored entries, so list order is immaterial
  to every property proved here.
* `&mut self` methods are modelled as functions from the state to the new
  state (plus the returned value); a fallible method additionally returns
  an `Option` error mirroring the Rust `Result`.
* Clock reads (`now()`) and fresh UUIDs are passed in as explicit
  arguments.
-/

namespace Hido

mutual

/-- A JSON value (`serde_json::Value`); numbers are modelled as exact
rationals, arrays and objects through the mutually defined list types. -/
inductive JValue where
  | null : JValue
  | bool : Bool → JValue
  | num : ℚ → JValue
  | str : String → JValue
  | arr : JArray → JValue
  | obj : JObject → JValue

/-- The element list of a JSON array. -/
inductive JArray where
  | nil : JArray
  | cons : JValue → JArray → JArray

/-- The key/value entry list of a JSON object. -/
inductive JObject where
  | nil : JObject
  | cons : String → JValue → JObject → JObject

end

mutual

/-- Structural equality of JSON values (`serde_json::Value`'s
`PartialEq`). -/
def JValue.jeq : JValue → JValue → Bool
  | .null, .null => true
  | .bool a, .bool b => a == b
  | .num a, .num b => a == b
  | .str a, .str b => a == b
  | .arr a, .arr b => JArray.jeq a b
  | .obj a, .obj b => JObject.jeq a b
  | _, _ => false

/-- Structural equality of JSON arrays. -/
def JArray.jeq : JArray → JArray → Bool
  | .nil, .nil => true
  | .cons x xs, .cons y ys => JValue.jeq x y && JArray.jeq xs ys
  | _, _ => false

/-- Structural equality of JSON objects. -/
def JObject.jeq : JObject → JObject → Bool
  | .nil, .nil => true
  | .cons k x xs, .cons k' y ys => k == k' && JValue.jeq x y && JObject.jeq xs ys
  | _, _ => false

end

/-- Lookup in an association list (model of `HashMap::get`). -/
def assocGet (k : String) : List (String × α) → Option α
  | [] => none
  | (k', v) :: rest => if k' = k then some v else assocGet k rest

/-- Replacing insertion in an association list (model of
`HashMap::insert`). -/
def assocPut (k : String) (v : α) : List (String × α) → List (String × α)
  | [] => [(k, v)]
  | (k', v') :: rest => if k' = k then (k, v) :: rest else (k', v') :: assocPut k v rest

/-- `serde_json::Value::as_f64`: only numbers convert. -/
def JValue.asF64 : JValue → Option ℚ
  | .num q => some q
  | _ => none

/-- `serde_json::Value::as_str`: only strings convert. -/
def JValue.asStr : JValue → Option String
  | .str s => some s
  | _ => none

/-- Whether the second character list starts with the first. -/
def charsStart : List Char → List Char → Bool
  | [], _ => true
  | _ :: _, [] => false
  | a :: as, b :: bs => a = b && charsStart as bs

/-- Whether `needle` occurs contiguously inside `hay`. -/
def charsContain : List Char → List Char → Bool
  | [], needle => needle.isEmpty
  | c :: rest, needle => charsStart needle (c :: rest) || charsContain rest needle

/-- Rust `str::contains`: `b` is a substring of `a`. -/
def strContainsSub (a b : String) : Bool :=
  charsContain a.data b.data

/-- The evaluation context handed to the guardrail engine:
`HashMap<String, serde_json::Value>`. -/
abbrev Context := List (String × JValue)

/-- A condition of a guardrail rule (`guardrails.rs`, `struct Condition`). -/
structure Condition where
  field : String
  operator : String
  value : JValue

/-- `Condition::new`. -/
def Condition.new (field operator : String) (value : JValue) : Condition :=
  ⟨field, operator, value⟩

/-- `Condition::evaluate` (`guardrails.rs` lines 58–90): look up the field,
then dispatch on the operator string; every ill-typed or unknown case is
`false`. -/
def Condition.evaluate (c : Condition) (context : Context) : Bool :=
  match assocGet c.field context with
  | none => false
  | some actual =>
    match c.operator with
    | "eq" => JValue.jeq actual c.value
    | "ne" => !JValue.jeq actual c.value
    | "gt" =>
      match actual.asF64, c.value.asF64 with
      | some a, some b => decide (b < a)
      | _, _ => false
    | "lt" =>
      match actual.asF64, c.value.asF64 with
      | some a, some b => decide (a < b)
      | _, _ => false
    | "contains" =>
      match actual.asStr, c.value.asStr with
      | some a, some b => strContainsSub a b
      | _, _ => false
    | _ => false

/-- Rule categories (`guardrails.rs`, `enum RuleType`). -/
inductive RuleType where
  | Transparency | Fairness | Safety | Privacy | Legality
  deriving DecidableEq

/-- Action taken when a guardrail fires (`guardrails.rs`,
`enum GuardrailAction`). -/
inductive GuardrailAction where
  | Approve | Reject | RequireApproval | Escalate
  deriving DecidableEq

/-- A guardrail rule (`guardrails.rs`, `struct GuardrailRule`); the `u8`
severity is modelled as a natural number. -/
structure GuardrailRule where
  rule_id : String
  rule_type : RuleType
  conditions : List Condition
  action : GuardrailAction
  description : String
  severity : Nat

/-- `GuardrailRule::new`: no conditions, severity 5. -/
def GuardrailRule.new (rule_id : String) (rule_type : RuleType)
    (action : GuardrailAction) (description : String) : GuardrailRule :=
  ⟨rule_id, rule_type, [], action, description, 5⟩

/-- `GuardrailRule::with_condition`. -/
def GuardrailRule.withCondition (r : GuardrailRule) (c : Condition) : GuardrailRule :=
  { r with conditions := r.conditions ++ [c] }

/-- `GuardrailRule::with_severity`: clamped to `[1, 10]`. -/
def GuardrailRule.withSeverity (r : GuardrailRule) (s : Nat) : GuardrailRule :=
  { r with severity := max 1 (min s 10) }

/-- `GuardrailRule::is_violated`: at least one condition and all of them
hold. -/
def GuardrailRule.isViolated (r : GuardrailRule) (context : Context) : Bool :=
  !r.conditions.isEmpty && r.conditions.all (·.evaluate context)

example : (Condition.new "score" "gt" (.num 1)).evaluate
    [("score", JValue.num 2)] = true := by decide

example : (Condition.new "score" "lt" (.num 1)).evaluate
    [("score", JValue.num 2)] = false := by decide

example : (Condition.new "name" "contains" (.str "ab")).evaluate
    [("name", JValue.str "xaby")] = true := by decide

/-- Timestamps (`crate::core::Timestamp`); the decision core never
computes with them. -/
abbrev Timestamp := Nat

/-- Record of one guardrail violation (`guardrails.rs`,
`struct ViolationRecord`). -/
structure ViolationRecord where
  rule_id : String
  timestamp : Timestamp
  context : Context
  action_taken : GuardrailAction

/-- Guardrail statistics (`guardrails.rs`, `struct GuardrailStats`);
`violations_by_type` is a counter map keyed by rule type. -/
structure GuardrailStats where
  total_evaluations : Nat
  violations_detected : Nat
  violations_by_type : List (RuleType × Nat)

/-- `GuardrailStats::default()`. -/
def GuardrailStats.default : GuardrailStats := ⟨0, 0, []⟩

/-- Result of an ethical evaluation (`guardrails.rs`,
`struct EthicalEvaluation`). -/
structure EthicalEvaluation where
  passes : Bool
  violations : List GuardrailRule
  recommendations : List String
  risk_score : ℚ
  required_action : Option GuardrailAction

/-- The guardrail system's state (`guardrails.rs`,
`struct EthicalGuardrail`). -/
structure EthicalGuardrail where
  rules : List GuardrailRule
  violation_log : List ViolationRecord
  stats : GuardrailStats

/-- `EthicalGuardrail::new`. -/
def EthicalGuardrail.new : EthicalGuardrail :=
  ⟨[], [], GuardrailStats.default⟩

/-- `EthicalGuardrail::add_rule`. -/
def EthicalGuardrail.addRule (g : EthicalGuardrail) (rule : GuardrailRule) : EthicalGuardrail :=
  { g with rules := g.rules ++ [rule] }

/-- `EthicalGuardrail::remove_rule`. -/
def EthicalGuardrail.removeRule (g : EthicalGuardrail) (rule_id : String) : EthicalGuardrail :=
  { g with rules := g.rules.filter (fun r => r.rule_id ≠ rule_id) }

/-- The default transparency rule of `EthicalGuardrail::with_defaults`. -/
def transparencyRule : GuardrailRule :=
  (((GuardrailRule.new "transparency-1" .Transparency .RequireApproval
      "High-impact decisions require explanation").withCondition
    (Condition.new "impact" "gt" (.num ((8:ℚ)/10)))).withCondition
    (Condition.new "has_explanation" "eq" (.bool false))).withSeverity 7

/-- The default safety rule of `EthicalGuardrail::with_defaults`. -/
def safetyRule : GuardrailRule :=
  ((GuardrailRule.new "safety-1" .Safety .Reject
      "High-risk actions blocked").withCondition
    (Condition.new "risk_score" "gt" (.num ((9:ℚ)/10)))).withSeverity 10

/-- The default privacy rule of `EthicalGuardrail::with_defaults`. -/
def privacyRule : GuardrailRule :=
  ((GuardrailRule.new "privacy-1" .Privacy .Reject
      "Sensitive data exposure blocked").withCondition
    (Condition.new "contains_pii" "eq" (.bool true))).withSeverity 9

/-- `EthicalGuardrail::with_defaults`: the three canonical rules, in this
registration order. -/
def EthicalGuardrail.withDefaults : EthicalGuardrail :=
  ((EthicalGuardrail.new.addRule transparencyRule).addRule safetyRule).addRule privacyRule

/-- `GuardrailRule::rule_type_str`. -/
def GuardrailRule.ruleTypeStr (r : GuardrailRule) : String :=
  match r.rule_type with
  | .Transparency => "TRANSPARENCY"
  | .Fairness => "FAIRNESS"
  | .Safety => "SAFETY"
  | .Privacy => "PRIVACY"
  | .Legality => "LEGALITY"

/-- Increment the per-type violation counter
(`*stats.violations_by_type.entry(t).or_insert(0) += 1`). -/
def bumpType (t : RuleType) : List (RuleType × Nat) → List (RuleType × Nat)
  | [] => [(t, 1)]
  | (t', n) :: rest => if t' = t then (t, n + 1) :: rest else (t', n) :: bumpType t rest

/-- The mutable loop state of `EthicalGuardrail::evaluate`: the local
variables of the loop together with the parts of `self` it mutates. -/
structure EvalState where
  violations : List GuardrailRule
  recommendations : List String
  max_severity : Nat
  required_action : Option GuardrailAction
  violation_log : List ViolationRecord
  violations_detected : Nat
  violations_by_type : List (RuleType × Nat)

/-- One iteration of the rule loop in `EthicalGuardrail::evaluate`
(`guardrails.rs` lines 266–294). -/
def evalRule (context : Context) (ts : Timestamp) (st : EvalState)
    (rule : GuardrailRule) : EvalState :=
  if rule.isViolated context then
    let st1 : EvalState :=
      { st with
        violations := st.violations ++ [rule]
        violations_detected := st.violations_detected + 1
        violations_by_type := bumpType rule.rule_type st.violations_by_type
        violation_log := st.violation_log ++
          [⟨rule.rule_id, ts, context, rule.action⟩]
        recommendations := st.recommendations ++
          ["[" ++ rule.ruleTypeStr ++ "] " ++ rule.rule_id ++ ": " ++ rule.description] }
    if st1.max_severity < rule.severity then
      { st1 with max_severity := rule.severity, required_action := some rule.action }
    else st1
  else st

/-- `EthicalGuardrail::evaluate` (`guardrails.rs` lines 258–309), with the
clock reading passed in; returns the evaluation and the updated engine
state. -/
def EthicalGuardrail.evaluate (g : EthicalGuardrail) (context : Context)
    (ts : Timestamp) : EthicalEvaluation × EthicalGuardrail :=
  let st0 : EvalState :=
    ⟨[], [], 0, none, g.violation_log, g.stats.violations_detected,
      g.stats.violations_by_type⟩
  let st := g.rules.foldl (evalRule context ts) st0
  let risk_score : ℚ :=
    if !st.violations.isEmpty then (st.max_severity : ℚ) / 10 else 0
  (⟨st.violations.isEmpty, st.violations, st.recommendations, risk_score,
      st.required_action⟩,
    { rules := g.rules
      violation_log := st.violation_log
      stats :=
        { total_evaluations := g.stats.total_evaluations + 1
          violations_detected := st.violations_detected
          violations_by_type := st.violations_by_type } })

/-- A decentralized identifier key (`uail/did.rs`, `struct DIDKey`); the
decision core only ever reads the `id` string. -/
structure DIDKey where
  id : String
  public_key : List Nat
  created : Timestamp
  version : Nat
  deriving DecidableEq

/-- Type of a vote (`voting.rs`, `enum VoteType`). -/
inductive VoteType where
  | Approve | Reject | Abstain
  deriving DecidableEq

/-- A single vote (`voting.rs`, `struct Vote`); the signature bytes are
modelled as naturals. -/
structure Vote where
  voter : String
  vote_type : VoteType
  timestamp : Timestamp
  justification : Option String
  signature : Option (List Nat)
  deriving DecidableEq

/-- `Vote::new`. -/
def Vote.new (voter : DIDKey) (vote_type : VoteType) (ts : Timestamp) : Vote :=
  ⟨voter.id, vote_type, ts, none, none⟩

/-- A registered voter (`voting.rs`, `struct VoterInfo`). -/
structure VoterInfo where
  id : String
  weight : ℚ
  reputation : ℚ
  is_byzantine : Bool
  deriving DecidableEq

/-- Voting configuration (`voting.rs`, `struct VotingConfig`). -/
structure VotingConfig where
  quorum_threshold : ℚ
  timeout_seconds : Nat
  weighted : Bool
  max_rounds : Nat
  deriving DecidableEq

/-- `VotingConfig::default()`: quorum 2/3, unweighted. -/
def VotingConfig.default : VotingConfig :=
  ⟨(2:ℚ)/3, 60, false, 3⟩

/-- Result of a tally (`voting.rs`, `struct ConsensusResult`). -/
structure ConsensusResult where
  consensus_reached : Bool
  decision : Option VoteType
  approve_votes : Nat
  reject_votes : Nat
  abstain_votes : Nat
  total_voters : Nat
  confidence : ℚ
  round : Nat
  deriving DecidableEq

/-- The Byzantine voting system's state (`voting.rs`,
`struct ByzantineVoting`): voter registry, current ballots (both
`HashMap`s keyed by voter id), round counter, active proposal and
configuration. -/
structure ByzantineVoting where
  voters : List (String × VoterInfo)
  votes : List (String × Vote)
  round : Nat
  proposal : Option String
  config : VotingConfig
  deriving DecidableEq

/-- `ByzantineVoting::new`. -/
def ByzantineVoting.new (config : VotingConfig) : ByzantineVoting :=
  ⟨[], [], 1, none, config⟩

/-- `ByzantineVoting::register_voter`: weight clamped to `[0, 1]`,
reputation 1, idempotent by voter id. -/
def ByzantineVoting.registerVoter (s : ByzantineVoting) (voter : DIDKey)
    (weight : ℚ) : ByzantineVoting :=
  { s with voters :=
      assocPut voter.id ⟨voter.id, max 0 (min weight 1), 1, false⟩ s.voters }

/-- `ByzantineVoting::unregister_voter`. -/
def ByzantineVoting.unregisterVoter (s : ByzantineVoting) (voter_id : String) :
    ByzantineVoting :=
  { s with voters := s.voters.filter (fun p => p.1 ≠ voter_id) }

/-- `ByzantineVoting::start_vote`: clear ballots, record the proposal,
reset the round counter. -/
def ByzantineVoting.startVote (s : ByzantineVoting) (proposal : String) :
    ByzantineVoting :=
  { s with votes := [], proposal := some proposal, round := 1 }

/-- The two error cases of `ByzantineVoting::cast_vote` (raised in the
source as `Error::Internal` with distinguishing messages). -/
inductive CastVoteError where
  | voterNotRegistered
  | noActiveProposal
  deriving DecidableEq

/-- `ByzantineVoting::cast_vote` (`voting.rs` lines 168–184): reject
unregistered voters and missing proposals, otherwise store the ballot,
replacing any earlier ballot of the same voter. Returns the state after
the call together with the error, if any. -/
def ByzantineVoting.castVote (s : ByzantineVoting) (vote : Vote) :
    ByzantineVoting × Option CastVoteError :=
  if (assocGet vote.voter s.voters).isNone then
    (s, some .voterNotRegistered)
  else if s.proposal.isNone then
    (s, some .noActiveProposal)
  else
    ({ s with votes := assocPut vote.voter vote s.votes }, none)

/-- The accumulator of the tally loop in `ByzantineVoting::tally`: the
five mutable counters. -/
structure TallyAcc where
  approve_weight : ℚ
  reject_weight : ℚ
  abstain_count : Nat
  approve_count : Nat
  reject_count : Nat

/-- The weight a ballot contributes in `tally`: 1 when unweighted,
otherwise the registered weight, defaulting to 1 when the voter is no
longer registered. -/
def ByzantineVoting.voteWeight (s : ByzantineVoting) (voter_id : String) : ℚ :=
  if s.config.weighted then
    ((assocGet voter_id s.voters).map VoterInfo.weight).getD 1
  else 1

/-- One iteration of the tally loop in `ByzantineVoting::tally`
(`voting.rs` lines 209–229). -/
def tallyStep (s : ByzantineVoting) (acc : TallyAcc) (p : String × Vote) :
    TallyAcc :=
  let w := s.voteWeight p.1
  match p.2.vote_type with
  | .Approve => { acc with approve_weight := acc.approve_weight + w,
                           approve_count := acc.approve_count + 1 }
  | .Reject => { acc with reject_weight := acc.reject_weight + w,
                          reject_count := acc.reject_count + 1 }
  | .Abstain => { acc with abstain_count := acc.abstain_count + 1 }

/-- The tally loop of `ByzantineVoting::tally` (`voting.rs` lines
203–229). -/
def ByzantineVoting.tallyAcc (s : ByzantineVoting) : TallyAcc :=
  s.votes.foldl (tallyStep s) ⟨0, 0, 0, 0, 0⟩

/-- The denominator of the participation ratio in `tally`: total
registered weight when weighted, else the number of registered voters. -/
def ByzantineVoting.totalWeight (s : ByzantineVoting) : ℚ :=
  if s.config.weighted then (s.voters.map (fun p => p.2.weight)).sum
  else (s.voters.length : ℚ)

/-- `ByzantineVoting::tally` (`voting.rs` lines 187–265), in the rational
reading of the two f32 division sites (where `x / 0 = 0`). This reading
is exact whenever the divisors are nonzero; `tallyF` below refines the
two divisions with the f32 special values (NaN, signed infinities),
which matters only in weighted mode with total registered weight 0 —
the confidence-range claim is settled against `tallyF`. -/
def ByzantineVoting.tally (s : ByzantineVoting) : ConsensusResult :=
  let total_voters := s.voters.length
  if total_voters = 0 then
    ⟨false, none, 0, 0, 0, 0, 0, s.round⟩
  else
    let acc := s.tallyAcc
    let participation := (acc.approve_weight + acc.reject_weight) / s.totalWeight
    let quorum_met := s.config.quorum_threshold ≤ participation
    let res : Bool × Option VoteType × ℚ :=
      if quorum_met then
        if acc.reject_weight < acc.approve_weight then
          (true, some VoteType.Approve,
            acc.approve_weight / (acc.approve_weight + acc.reject_weight))
        else if acc.approve_weight < acc.reject_weight then
          (true, some VoteType.Reject,
            acc.reject_weight / (acc.approve_weight + acc.reject_weight))
        else (false, none, (1:ℚ)/2)
      else (false, none, participation)
    { consensus_reached := res.1
      decision := res.2.1
      approve_votes := acc.approve_count
      reject_votes := acc.reject_count
      abstain_votes := acc.abstain_count
      total_voters := total_voters
      confidence := res.2.2
      round := s.round }

/-- An f32 value as the tally arithmetic sees it: a finite value
(taken exact, as rationals), a signed infinity (`true` = positive), or
NaN. Only the two division sites of `tally` can produce a non-finite
value from finite, clamped inputs. -/
inductive F32 where
  | fin : ℚ → F32
  | inf : Bool → F32
  | nan : F32
  deriving DecidableEq

/-- f32 division of finite values: a finite quotient when the divisor is
nonzero, `0.0 / 0.0 = NaN`, and `x / 0.0 = ±∞` for `x ≠ 0`. -/
def F32.div (a b : ℚ) : F32 :=
  if b = 0 then
    if a = 0 then .nan else .inf (decide (0 < a))
  else .fin (a / b)

/-- The f32 comparison `v >= q` for a finite threshold `q`: false on
NaN, true on `+∞`, false on `-∞`. -/
def F32.leF (q : ℚ) : F32 → Bool
  | .fin x => decide (q ≤ x)
  | .inf sgn => sgn
  | .nan => false

/-- `ConsensusResult` in the f32-faithful reading: identical fields,
with the confidence kept as an f32 value. -/
structure ConsensusResultF where
  consensus_reached : Bool
  decision : Option VoteType
  approve_votes : Nat
  reject_votes : Nat
  abstain_votes : Nat
  total_voters : Nat
  confidence : F32
  round : Nat
  deriving DecidableEq

/-- `ByzantineVoting::tally` (`voting.rs` lines 187–265) with the two
division sites modelled at f32 special-value precision: the
participation ratio and the winning-side confidence are `F32.div`, and
the quorum comparison is the f32 `>=` (false on NaN). Identical to
`tally` except that a zero divisor yields NaN/±∞ instead of 0. -/
def ByzantineVoting.tallyF (s : ByzantineVoting) : ConsensusResultF :=
  let total_voters := s.voters.length
  if total_voters = 0 then
    ⟨false, none, 0, 0, 0, 0, .fin 0, s.round⟩
  else
    let acc := s.tallyAcc
    let participation :=
      F32.div (acc.approve_weight + acc.reject_weight) s.totalWeight
    let quorum_met := F32.leF s.config.quorum_threshold participation
    let res : Bool × Option VoteType × F32 :=
      if quorum_met then
        if acc.reject_weight < acc.approve_weight then
          (true, some VoteType.Approve,
            F32.div acc.approve_weight (acc.approve_weight + acc.reject_weight))
        else if acc.approve_weight < acc.reject_weight then
          (true, some VoteType.Reject,
            F32.div acc.reject_weight (acc.approve_weight + acc.reject_weight))
        else (false, none, .fin ((1:ℚ)/2))
      else (false, none, participation)
    { consensus_reached := res.1
      decision := res.2.1
      approve_votes := acc.approve_count
      reject_votes := acc.reject_count
      abstain_votes := acc.abstain_count
      total_voters := total_voters
      confidence := res.2.2
      round := s.round }

/-- Byzantine fault tolerance report (`voting.rs`,
`struct ByzantineTolerance`). -/
structure ByzantineTolerance where
  total_voters : Nat
  max_faulty_tolerated : Nat
  honest_required : Nat
  is_secure : Bool
  deriving DecidableEq

/-- Rust debug-build (checked) `usize` subtraction: `none` models the
arithmetic-overflow panic. -/
def checkedSub (a b : Nat) : Option Nat :=
  if b ≤ a then some (a - b) else none

/-- `ByzantineVoting::byzantine_tolerance` (`voting.rs` lines 269–280):
`max_faulty = (n - 1) / 3`, `honest_required = n - max_faulty`,
`is_secure = n >= 4`; both subtractions are checked `usize` arithmetic,
so `n = 0` underflows (`none`). -/
def ByzantineVoting.byzantineTolerance (s : ByzantineVoting) :
    Option ByzantineTolerance :=
  let n := s.voters.length
  match checkedSub n 1 with
  | none => none
  | some n1 =>
    let max_faulty := n1 / 3
    match checkedSub n max_faulty with
    | none => none
    | some honest_required =>
      some ⟨n, max_faulty, honest_required, decide (4 ≤ n)⟩

/-- `ByzantineVoting::next_round`: clear ballots, advance the round
counter, keep the registry. -/
def ByzantineVoting.nextRound (s : ByzantineVoting) : ByzantineVoting :=
  { s with round := s.round + 1, votes := [] }

/-- Intent domain taxonomy (`icc/intent.rs`, `enum IntentDomain`). -/
inductive IntentDomain where
  | Data | Compute | Communication | Coordination
  | Custom : String → IntentDomain
  deriving DecidableEq

/-- Intent priority tiers (`icc/intent.rs`, `enum IntentPriority`). -/
inductive IntentPriority where
  | Low | Normal | High | Critical
  deriving DecidableEq

/-- An execution constraint of an intent (`icc/intent.rs`,
`struct IntentConstraint`). -/
structure IntentConstraint where
  constraint_type : String
  value : JValue
  required : Bool

/-- A semantic intent (`icc/intent.rs`, `struct SemanticIntent`); the
decision engine reads `id`, `action`, `priority` and `sender`. -/
structure SemanticIntent where
  id : String
  domain : IntentDomain
  action : String
  target : Option String
  parameters : List (String × JValue)
  constraints : List IntentConstraint
  priority : IntentPriority
  sender : String
  recipients : List String
  created : Timestamp

/-- A recommender prediction (`gnn/learner.rs`,
`struct PredictedDecision`). -/
structure PredictedDecision where
  agent_id : String
  confidence : ℚ
  alternatives : List (String × ℚ)
  explanation : List (String × ℚ)
  deriving DecidableEq

/-- A decision made by the engine (`engine.rs`, `struct Decision`). -/
structure Decision where
  id : String
  selected_agent : String
  decision_type : VoteType
  confidence : ℚ
  timestamp : Timestamp
  requires_human_approval : Bool
  deriving DecidableEq

/-- Explanation of a decision (`engine.rs`,
`struct DecisionExplanation`); the human-readable `reasoning` string is a
presentation concern (decimal percentage formatting) and is not
modelled. -/
structure DecisionExplanation where
  decision : Decision
  gnn_recommendation : Option PredictedDecision
  voting_result : ConsensusResult
  guardrail_check : EthicalEvaluation
  factors : List (String × ℚ)

/-- Engine metrics (`engine.rs`, `struct DecisionMetrics`). -/
structure DecisionMetrics where
  total_decisions : Nat
  approved_decisions : Nat
  rejected_decisions : Nat
  escalated_decisions : Nat
  average_confidence : ℚ
  deriving DecidableEq

/-- `DecisionMetrics::default()`. -/
def DecisionMetrics.default : DecisionMetrics := ⟨0, 0, 0, 0, 0⟩

/-- Engine configuration (`engine.rs`, `struct EngineConfig`). -/
structure EngineConfig where
  gnn_weight : ℚ
  voting_weight : ℚ
  min_confidence : ℚ
  voting_config : VotingConfig
  deriving DecidableEq

/-- `EngineConfig::default()`: recommender weight 0.3, voting weight 0.7,
minimum confidence 0.5. -/
def EngineConfig.default : EngineConfig :=
  ⟨(3:ℚ)/10, (7:ℚ)/10, (1:ℚ)/2, VotingConfig.default⟩

/-- The decision engine's state (`engine.rs`, `struct DecisionEngine`);
whether a recommender is configured is irrelevant here because its
prediction enters `make_decision` as an explicit optional signal. -/
structure DecisionEngine where
  voting : ByzantineVoting
  guardrails : EthicalGuardrail
  metrics : DecisionMetrics
  config : EngineConfig

/-- `DecisionEngine::new`. -/
def DecisionEngine.new (config : EngineConfig) : DecisionEngine :=
  ⟨ByzantineVoting.new config.voting_config, EthicalGuardrail.withDefaults,
    DecisionMetrics.default, config⟩

/-- `DecisionEngine::register_agent`. -/
def DecisionEngine.registerAgent (e : DecisionEngine) (agent : DIDKey)
    (weight : ℚ) : DecisionEngine :=
  { e with voting := e.voting.registerVoter agent weight }

/-- `DecisionEngine::combine_signals` (`engine.rs` lines 221–269):
guardrail veto first, then escalation, then the weighted combination of
the voting and recommender confidences. Returns
`(selected_agent, decision_type, confidence, requires_human_approval)`. -/
def combineSignals (config : EngineConfig) (voting : ConsensusResult)
    (gnn : Option PredictedDecision) (guardrails : EthicalEvaluation)
    (candidates : List DIDKey) : String × VoteType × ℚ × Bool :=
  match guardrails.required_action with
  | some .Reject =>
    (((candidates.head?).map DIDKey.id).getD "", VoteType.Reject,
      guardrails.risk_score, false)
  | some .RequireApproval | some .Escalate =>
    let agent :=
      match gnn with
      | some g => g.agent_id
      | none => ((candidates.head?).map DIDKey.id).getD ""
    (agent, voting.decision.getD VoteType.Approve, voting.confidence, true)
  | _ =>
    let selected_agent :=
      match gnn with
      | some gnn_rec =>
        if (8:ℚ)/10 < gnn_rec.confidence then gnn_rec.agent_id
        else ((candidates.head?).map DIDKey.id).getD ""
      | none => ((candidates.head?).map DIDKey.id).getD ""
    let decision_type := voting.decision.getD VoteType.Approve
    let gnn_confidence := (gnn.map PredictedDecision.confidence).getD ((1:ℚ)/2)
    let combined_confidence := config.voting_weight * voting.confidence
      + config.gnn_weight * gnn_confidence
    (selected_agent, decision_type, combined_confidence,
      decide (combined_confidence < config.min_confidence))

/-- The guardrail context built by `DecisionEngine::make_decision`
(`engine.rs` lines 160–179): derived risk score, explanation flag,
a constant-`false` PII flag, and the priority-tier impact. -/
def buildContext (intent : SemanticIntent) (voting_result : ConsensusResult) :
    Context :=
  let c1 := assocPut "risk_score" (JValue.num (1 - voting_result.confidence)) []
  let c2 := assocPut "has_explanation" (JValue.bool (!intent.action.isEmpty)) c1
  let c3 := assocPut "contains_pii" (JValue.bool false) c2
  assocPut "impact"
    (JValue.num
      (match intent.priority with
        | .Critical => 1
        | .High => (7:ℚ)/10
        | .Normal => (1:ℚ)/2
        | .Low => (3:ℚ)/10)) c3

/-- `DecisionEngine::update_metrics` (`engine.rs` lines 320–337). -/
def updateMetrics (m : DecisionMetrics) (decision : Decision) : DecisionMetrics :=
  let total := m.total_decisions + 1
  let approved :=
    match decision.decision_type with
    | .Approve => m.approved_decisions + 1
    | _ => m.approved_decisions
  let rejected :=
    match decision.decision_type with
    | .Reject => m.rejected_decisions + 1
    | _ => m.rejected_decisions
  let escalated :=
    if decision.requires_human_approval then m.escalated_decisions + 1
    else m.escalated_decisions
  { total_decisions := total
    approved_decisions := approved
    rejected_decisions := rejected
    escalated_decisions := escalated
    average_confidence :=
      (m.average_confidence * ((total - 1 : Nat) : ℚ) + decision.confidence)
        / (total : ℚ) }

/-- `DecisionEngine::make_decision` (`engine.rs` lines 120–219): start a
round for the intent, cast the supplied votes discarding per-ballot
errors, tally, evaluate the guardrails on the derived context, combine
the signals and update the metrics. The optional recommender prediction
(`gnnRec`), the fresh decision id and the clock reading are explicit
inputs. -/
def DecisionEngine.makeDecision (e : DecisionEngine) (intent : SemanticIntent)
    (candidates : List DIDKey) (votes : List Vote)
    (gnnRec : Option PredictedDecision) (decisionId : String)
    (ts : Timestamp) : Decision × DecisionExplanation × DecisionEngine :=
  let v1 := e.voting.startVote intent.id
  let v2 := votes.foldl (fun s vote => (s.castVote vote).1) v1
  let voting_result := v2.tally
  let context := buildContext intent voting_result
  let gpair := e.guardrails.evaluate context ts
  let guardrail_check := gpair.1
  let cs := combineSignals e.config voting_result gnnRec guardrail_check candidates
  let decision : Decision :=
    ⟨decisionId, cs.1, cs.2.1, cs.2.2.1, ts, cs.2.2.2⟩
  let factors :=
    [("voting_confidence", voting_result.confidence)] ++
      (match gnnRec with
        | some g => [("gnn_confidence", g.confidence)]
        | none => []) ++
      [("guardrail_risk", guardrail_check.risk_score)]
  let explanation : DecisionExplanation :=
    ⟨decision, gnnRec, voting_result, guardrail_check, factors⟩
  (decision, explanation,
    { voting := v2, guardrails := gpair.2,
      metrics := updateMetrics e.metrics decision, config := e.config })

/-! ### Association-list helper lemmas -/

theorem assocGet_assocPut_same (k : String) (v : α) (l : List (String × α)) :
    assocGet k (assocPut k v l) = some v := by
  induction l with
  | nil => simp [assocGet, assocPut]
  | cons p rest ih =>
    obtain ⟨k', v'⟩ := p
    by_cases h : k' = k
    · simp [assocGet, assocPut, h]
    · simp [assocGet, assocPut, h, ih]

theorem assocGet_assocPut_ne (k k₀ : String) (v : α) (l : List (String × α))
    (h : k₀ ≠ k) : assocGet k₀ (assocPut k v l) = assocGet k₀ l := by
  have hne : k ≠ k₀ := Ne.symm h
  induction l with
  | nil => simp [assocGet, assocPut, hne]
  | cons p rest ih =>
    obtain ⟨k', v'⟩ := p
    by_cases hk : k' = k
    · subst hk
      simp [assocGet, assocPut, hne]
    · by_cases hk0 : k' = k₀ <;> simp [assocGet, assocPut, hk, hk0, ih, h]

/-! ### Claim C4 — Byzantine tolerance formula -/

/-- Claim C4, counterexample: with zero registered voters,
`byzantine_tolerance` does not return the claimed record — the checked
`usize` subtraction `n - 1` underflows (a panic in the Rust debug
profile), modelled as `none`. -/
theorem byzantineTolerance_zero_voters :
    (ByzantineVoting.new VotingConfig.default).byzantineTolerance = none := rfl

/-- Claim C4 (amended): for every voting state with at least one
registered voter, `byzantine_tolerance` returns
`max_faulty_tolerated = (n - 1) / 3` (integer division),
`honest_required = n - max_faulty_tolerated` and `is_secure = (n ≥ 4)`,
without panicking; at `n = 0` the subtraction `n - 1` underflows instead
(see the counterexample). -/
theorem byzantineTolerance_formula (s : ByzantineVoting)
    (h : 1 ≤ s.voters.length) :
    s.byzantineTolerance =
      some ⟨s.voters.length, (s.voters.length - 1) / 3,
        s.voters.length - (s.voters.length - 1) / 3,
        decide (4 ≤ s.voters.length)⟩ := by
  have hdiv : (s.voters.length - 1) / 3 ≤ s.voters.length :=
    le_trans (Nat.div_le_self _ _) (Nat.sub_le _ _)
  simp [ByzantineVoting.byzantineTolerance, checkedSub, h, hdiv]

/-- A concrete four-voter state (spec example 3). -/
def fourVoterState : ByzantineVoting :=
  ((((ByzantineVoting.new VotingConfig.default).registerVoter ⟨"a", [], 0, 0⟩ 1
    ).registerVoter ⟨"b", [], 0, 0⟩ 1).registerVoter ⟨"c", [], 0, 0⟩ 1
    ).registerVoter ⟨"d", [], 0, 0⟩ 1

/-- Witness for C4 (amended): four registered voters tolerate one faulty
voter, require three honest ones and are secure. -/
theorem byzantineTolerance_formula_witness :
    fourVoterState.byzantineTolerance = some ⟨4, 1, 3, true⟩ := by
  rw [byzantineTolerance_formula fourVoterState (by decide)]
  decide

/-! ### Claim C7 — cast_vote raises-iff and atomicity -/

/-- Claim C7: `cast_vote` errs exactly on an unregistered voter
(`VoterNotRegistered`, checked first) or a missing active proposal
(`NoActiveProposal`); a failed call leaves the whole state untouched, and
a successful call stores the ballot under the voter's id, overwriting any
earlier ballot of that voter and leaving every other voter's ballot and
all other fields unchanged. -/
theorem castVote_spec (s : ByzantineVoting) (vote : Vote) :
    ((s.castVote vote).2 ≠ none ↔
      assocGet vote.voter s.voters = none ∨ s.proposal = none)
    ∧ ((s.castVote vote).2 = some .voterNotRegistered ↔
        assocGet vote.voter s.voters = none)
    ∧ ((s.castVote vote).2 = some .noActiveProposal ↔
        assocGet vote.voter s.voters ≠ none ∧ s.proposal = none)
    ∧ ((s.castVote vote).2 ≠ none → (s.castVote vote).1 = s)
    ∧ ((s.castVote vote).2 = none →
        (s.castVote vote).1 =
            { s with votes := assocPut vote.voter vote s.votes }
          ∧ assocGet vote.voter (s.castVote vote).1.votes = some vote
          ∧ ∀ other, other ≠ vote.voter →
              assocGet other (s.castVote vote).1.votes =
                assocGet other s.votes) := by
  by_cases hreg : assocGet vote.voter s.voters = none
  · simp [ByzantineVoting.castVote, hreg, Option.isNone_iff_eq_none]
  · by_cases hprop : s.proposal = none
    · simp [ByzantineVoting.castVote, hreg, hprop, Option.isNone_iff_eq_none]
    · simp [ByzantineVoting.castVote, hreg, hprop, Option.isNone_iff_eq_none,
        assocGet_assocPut_same]
      intro other hother
      exact assocGet_assocPut_ne _ _ _ _ hother

/-- A one-voter state with an active proposal. -/
def oneVoterActiveState : ByzantineVoting :=
  ((ByzantineVoting.new VotingConfig.default).registerVoter
    ⟨"v1", [], 0, 0⟩ 1).startVote "proposal-1"

/-- A ballot from the registered voter and one from a stranger. -/
def v1ApproveVote : Vote := ⟨"v1", .Approve, 0, none, none⟩

/-- Witness for C7: the registered voter's ballot is accepted and stored;
a stranger's ballot is rejected with `VoterNotRegistered` and the state
is untouched. -/
theorem castVote_spec_witness :
    assocGet "v1" (oneVoterActiveState.castVote v1ApproveVote).1.votes =
        some v1ApproveVote
    ∧ (oneVoterActiveState.castVote ⟨"v9", .Approve, 0, none, none⟩).1 =
        oneVoterActiveState := by
  constructor
  · exact ((castVote_spec oneVoterActiveState v1ApproveVote).2.2.2.2
      (by decide)).2.1
  · exact (castVote_spec oneVoterActiveState
      ⟨"v9", .Approve, 0, none, none⟩).2.2.2.1 (by decide)

/-! ### Claim C1 — guardrail veto precedence -/

theorem combineSignals_reject (config : EngineConfig) (voting : ConsensusResult)
    (gnn : Option PredictedDecision) (guardrails : EthicalEvaluation)
    (candidates : List DIDKey)
    (h : guardrails.required_action = some .Reject) :
    combineSignals config voting gnn guardrails candidates =
      (((candidates.head?).map DIDKey.id).getD "", VoteType.Reject,
        guardrails.risk_score, false) := by
  unfold combineSignals
  rw [h]

/-- Claim C1: when the guardrail evaluation used by `make_decision`
requires `Reject`, the returned decision is a Reject whose selected agent
is the first candidate (or empty), whose confidence is the guardrail risk
score, and which does not require human approval — voting and
recommendation are overridden. -/
theorem guardrail_veto_precedence (e : DecisionEngine) (intent : SemanticIntent)
    (candidates : List DIDKey) (votes : List Vote)
    (gnnRec : Option PredictedDecision) (decisionId : String) (ts : Timestamp)
    (h : (e.makeDecision intent candidates votes gnnRec decisionId
        ts).2.1.guardrail_check.required_action = some .Reject) :
    (e.makeDecision intent candidates votes gnnRec decisionId
        ts).1.decision_type = VoteType.Reject
    ∧ (e.makeDecision intent candidates votes gnnRec decisionId
        ts).1.selected_agent = ((candidates.head?).map DIDKey.id).getD ""
    ∧ (e.makeDecision intent candidates votes gnnRec decisionId
        ts).1.confidence = (e.makeDecision intent candidates votes gnnRec
        decisionId ts).2.1.guardrail_check.risk_score
    ∧ (e.makeDecision intent candidates votes gnnRec decisionId
        ts).1.requires_human_approval = false := by
  simp only [DecisionEngine.makeDecision] at h ⊢
  rw [combineSignals_reject _ _ _ _ _ h]
  exact ⟨rfl, rfl, rfl, rfl⟩

/-- The default engine with an empty voter registry, used as the C1
witness: no votes at all means voting confidence 0, hence derived
risk 1, which fires the default safety rule (`Reject`, severity 10). -/
def vetoEngine : DecisionEngine := DecisionEngine.new EngineConfig.default

/-- A normal-priority intent with a nonempty action. -/
def normalIntent : SemanticIntent :=
  ⟨"proposal-1", .Data, "act", none, [], [], .Normal, "sender", [], 0⟩

/-- Witness for C1: with the default rules and an empty registry the
safety rule vetoes, and `make_decision` returns a Reject with empty
selected agent, confidence 1 and no human-approval flag. -/
theorem guardrail_veto_precedence_witness :
    (vetoEngine.makeDecision normalIntent [] [] none "d-1" 0).1.decision_type
        = VoteType.Reject
    ∧ (vetoEngine.makeDecision normalIntent [] [] none "d-1" 0).1.confidence
        = (vetoEngine.makeDecision normalIntent [] [] none
            "d-1" 0).2.1.guardrail_check.risk_score
    ∧ (vetoEngine.makeDecision normalIntent [] [] none "d-1"
        0).1.requires_human_approval = false := by
  have h := guardrail_veto_precedence vetoEngine normalIntent [] [] none "d-1" 0
    (by with_unfolding_all decide)
  exact ⟨h.1, h.2.2.1, h.2.2.2⟩

/-! ### Claim C9 — escalation monotonicity in min_confidence -/

/-- Claim C9: with fixed voting result, recommender signal, guardrail
evaluation and candidates, and two configurations that agree on the
signal weights, if `combine_signals` escalates to a human under the
smaller `min_confidence` threshold it also does under the larger one. -/
theorem escalation_monotonicity (c₁ c₂ : EngineConfig)
    (voting : ConsensusResult) (gnn : Option PredictedDecision)
    (guardrails : EthicalEvaluation) (candidates : List DIDKey)
    (hg : c₁.gnn_weight = c₂.gnn_weight)
    (hv : c₁.voting_weight = c₂.voting_weight)
    (hm : c₁.min_confidence ≤ c₂.min_confidence)
    (h : (combineSignals c₁ voting gnn guardrails candidates).2.2.2 = true) :
    (combineSignals c₂ voting gnn guardrails candidates).2.2.2 = true := by
  unfold combineSignals at h ⊢
  cases hra : guardrails.required_action with
  | none =>
    rw [hra] at h
    simp only [decide_eq_true_eq] at h ⊢
    calc c₂.voting_weight * voting.confidence +
          c₂.gnn_weight * ((gnn.map PredictedDecision.confidence).getD ((1:ℚ)/2))
        = c₁.voting_weight * voting.confidence +
          c₁.gnn_weight * ((gnn.map PredictedDecision.confidence).getD ((1:ℚ)/2)) := by
          rw [hg, hv]
      _ < c₁.min_confidence := h
      _ ≤ c₂.min_confidence := hm
  | some a =>
    rw [hra] at h
    cases a with
    | Approve =>
      simp only [decide_eq_true_eq] at h ⊢
      calc c₂.voting_weight * voting.confidence +
            c₂.gnn_weight * ((gnn.map PredictedDecision.confidence).getD ((1:ℚ)/2))
          = c₁.voting_weight * voting.confidence +
            c₁.gnn_weight * ((gnn.map PredictedDecision.confidence).getD ((1:ℚ)/2)) := by
            rw [hg, hv]
        _ < c₁.min_confidence := h
        _ ≤ c₂.min_confidence := hm
    | Reject => simp at h
    | RequireApproval => rfl
    | Escalate => rfl

/-- A low-confidence consensus result and a passing guardrail check for
the C9 witness. -/
def quietVoting : ConsensusResult := ⟨false, none, 0, 0, 0, 3, 0, 1⟩

/-- A guardrail evaluation with no violations. -/
def passingEval : EthicalEvaluation := ⟨true, [], [], 0, none⟩

/-- A configuration like the default but with threshold 0.9. -/
def strictConfig : EngineConfig :=
  ⟨(3:ℚ)/10, (7:ℚ)/10, (9:ℚ)/10, VotingConfig.default⟩

/-- Witness for C9: under the default configuration the combined
confidence 0.15 escalates, and raising `min_confidence` to 0.9 keeps the
escalation. -/
theorem escalation_monotonicity_witness :
    (combineSignals strictConfig quietVoting none passingEval []).2.2.2 = true :=
  escalation_monotonicity EngineConfig.default strictConfig quietVoting none
    passingEval [] rfl rfl
    (by norm_num [EngineConfig.default, strictConfig])
    (by norm_num [combineSignals, EngineConfig.default, VotingConfig.default,
      quietVoting, passingEval])

/-! ### Claim C6 — rule AND semantics and fail-closed conditions -/

/-- Claim C6: a rule is violated iff it has at least one condition and
every condition holds; and a condition evaluates to `false` whenever its
field is absent, whenever `gt`/`lt` meets a non-numeric operand, whenever
`contains` meets a non-string operand, and whenever the operator is
unknown. -/
theorem condition_fail_closed (rule : GuardrailRule) (context : Context)
    (c : Condition) :
    (rule.isViolated context = true ↔
      rule.conditions ≠ [] ∧ ∀ cond ∈ rule.conditions, cond.evaluate context = true)
    ∧ (assocGet c.field context = none → c.evaluate context = false)
    ∧ (∀ actual, assocGet c.field context = some actual →
        (c.operator = "gt" ∨ c.operator = "lt") →
        actual.asF64 = none ∨ c.value.asF64 = none →
        c.evaluate context = false)
    ∧ (∀ actual, assocGet c.field context = some actual →
        c.operator = "contains" →
        actual.asStr = none ∨ c.value.asStr = none →
        c.evaluate context = false)
    ∧ (c.operator ∉ (["eq", "ne", "gt", "lt", "contains"] : List String) →
        c.evaluate context = false) := by
  refine ⟨?_, ?_, ?_, ?_, ?_⟩
  · simp [GuardrailRule.isViolated, List.all_eq_true, List.isEmpty_iff]
  · intro h
    simp [Condition.evaluate, h]
  · intro actual hsome hop hnone
    rcases hop with hop | hop <;>
      rcases hnone with hn | hn <;>
        simp only [Condition.evaluate, hsome, hop] <;>
        cases hx : actual.asF64 <;> cases hy : c.value.asF64 <;>
          simp_all
  · intro actual hsome hop hnone
    rcases hnone with hn | hn <;>
      simp only [Condition.evaluate, hsome, hop] <;>
      cases hx : actual.asStr <;> cases hy : c.value.asStr <;>
        simp_all
  · intro hop
    unfold Condition.evaluate
    cases hget : assocGet c.field context with
    | none => rfl
    | some actual => split <;> simp_all

/-- A two-condition rule and a matching context for the C6 witness. -/
def andRule : GuardrailRule :=
  ⟨"and-1", .Safety,
    [Condition.new "a" "eq" (.num 1), Condition.new "b" "eq" (.num 2)],
    .Reject, "both conditions", 5⟩

/-- The context that satisfies both conditions of `andRule`. -/
def abContext : Context := [("a", JValue.num 1), ("b", JValue.num 2)]

/-- Witness for C6: `andRule` fires on `abContext`; a condition on a
missing field, a `gt` against a string value, a `contains` against a
numeric value, and an unknown operator all evaluate to `false` there. -/
theorem condition_fail_closed_witness :
    andRule.isViolated abContext = true
    ∧ (Condition.new "zzz" "eq" (.num 1)).evaluate abContext = false
    ∧ (Condition.new "a" "gt" (.str "x")).evaluate abContext = false
    ∧ (Condition.new "a" "contains" (.num 1)).evaluate abContext = false
    ∧ (Condition.new "a" "frobnicate" (.num 1)).evaluate abContext = false := by
  refine ⟨?_, ?_, ?_, ?_, ?_⟩
  · exact (condition_fail_closed andRule abContext
      (Condition.new "zzz" "eq" (.num 1))).1.mpr
      ⟨by simp [andRule], by decide⟩
  · exact (condition_fail_closed andRule abContext
      (Condition.new "zzz" "eq" (.num 1))).2.1 rfl
  · exact (condition_fail_closed andRule abContext
      (Condition.new "a" "gt" (.str "x"))).2.2.1 (JValue.num 1) rfl
      (Or.inl rfl) (Or.inr rfl)
  · exact (condition_fail_closed andRule abContext
      (Condition.new "a" "contains" (.num 1))).2.2.2.1 (JValue.num 1)
      rfl rfl (Or.inl rfl)
  · exact (condition_fail_closed andRule abContext
      (Condition.new "a" "frobnicate" (.num 1))).2.2.2.2 (by decide)

/-! ### Claim C10 — the PII flag is constantly false in make_decision -/

theorem foldl_evalRule_violations (ctx : Context) (ts : Timestamp) :
    ∀ (rules : List GuardrailRule) (st : EvalState),
      (rules.foldl (evalRule ctx ts) st).violations =
        st.violations ++ rules.filter (fun r => r.isViolated ctx)
  | [], st => by simp
  | r :: rs, st => by
    rw [List.foldl_cons, foldl_evalRule_violations ctx ts rs]
    by_cases h : r.isViolated ctx
    · have h1 : (evalRule ctx ts st r).violations = st.violations ++ [r] := by
        simp only [evalRule, h, if_true]
        split <;> rfl
      rw [h1]
      simp [List.filter_cons, h]
    · have h1 : evalRule ctx ts st r = st := by
        simp [evalRule, h]
      rw [h1]
      simp [List.filter_cons, h]

/-- The default privacy rule never fires on a context built by
`make_decision`: the PII flag there is the constant `false`. -/
theorem privacyRule_not_violated (intent : SemanticIntent)
    (vr : ConsensusResult) :
    privacyRule.isViolated (buildContext intent vr) = false := rfl

/-- Claim C10: `make_decision` inserts `contains_pii = false` as a
constant into the guardrail context — it is never taken from the intent
or any external input — so the default privacy rule is never among the
violations of the guardrail evaluation of any `make_decision` call. -/
theorem pii_flag_constant_false (e : DecisionEngine) (intent : SemanticIntent)
    (candidates : List DIDKey) (votes : List Vote)
    (gnnRec : Option PredictedDecision) (decisionId : String) (ts : Timestamp) :
    assocGet "contains_pii"
        (buildContext intent (e.makeDecision intent candidates votes gnnRec
          decisionId ts).2.1.voting_result) = some (JValue.bool false)
    ∧ privacyRule ∉ (e.makeDecision intent candidates votes gnnRec decisionId
        ts).2.1.guardrail_check.violations := by
  refine ⟨rfl, ?_⟩
  intro hmem
  have h1 : (e.makeDecision intent candidates votes gnnRec decisionId
      ts).2.1.guardrail_check.violations =
      e.guardrails.rules.filter
        (fun r => r.isViolated (buildContext intent
          (e.makeDecision intent candidates votes gnnRec decisionId
            ts).2.1.voting_result)) := by
    simp only [DecisionEngine.makeDecision, EthicalGuardrail.evaluate]
    rw [foldl_evalRule_violations]
    simp
  rw [h1] at hmem
  have hv := List.of_mem_filter hmem
  rw [privacyRule_not_violated] at hv
  exact Bool.false_ne_true hv

/-- Witness for C10 (the theorem has no hypotheses; this instantiates it
at a concrete engine and intent): the PII flag of the evaluated context
is `false` and the privacy rule is not among the violations. -/
theorem pii_flag_constant_false_witness :
    privacyRule ∉ (vetoEngine.makeDecision normalIntent [] [] none "d-1"
        0).2.1.guardrail_check.violations :=
  (pii_flag_constant_false vetoEngine normalIntent [] [] none "d-1" 0).2

/-! ### Claim C2 — tally postcondition (quorum, majority, tie) -/

/-- Claim C2: with at least one registered voter, `tally` reports
consensus exactly when participation reaches the quorum threshold and the
two sides differ; the decision is then the strictly heavier side with
confidence `winning / (approve + reject)`; a quorum-met tie yields no
consensus with confidence 1/2; a quorum failure yields no consensus with
the participation as confidence. -/
theorem tally_postcondition (s : ByzantineVoting) (h : s.voters ≠ []) :
    (s.tally.consensus_reached = true ↔
      (s.config.quorum_threshold ≤
          (s.tallyAcc.approve_weight + s.tallyAcc.reject_weight) / s.totalWeight
        ∧ s.tallyAcc.approve_weight ≠ s.tallyAcc.reject_weight))
    ∧ (s.config.quorum_threshold ≤
          (s.tallyAcc.approve_weight + s.tallyAcc.reject_weight) / s.totalWeight →
        s.tallyAcc.reject_weight < s.tallyAcc.approve_weight →
        s.tally.decision = some VoteType.Approve
          ∧ s.tally.confidence = s.tallyAcc.approve_weight /
              (s.tallyAcc.approve_weight + s.tallyAcc.reject_weight))
    ∧ (s.config.quorum_threshold ≤
          (s.tallyAcc.approve_weight + s.tallyAcc.reject_weight) / s.totalWeight →
        s.tallyAcc.approve_weight < s.tallyAcc.reject_weight →
        s.tally.decision = some VoteType.Reject
          ∧ s.tally.confidence = s.tallyAcc.reject_weight /
              (s.tallyAcc.approve_weight + s.tallyAcc.reject_weight))
    ∧ (s.config.quorum_threshold ≤
          (s.tallyAcc.approve_weight + s.tallyAcc.reject_weight) / s.totalWeight →
        s.tallyAcc.approve_weight = s.tallyAcc.reject_weight →
        s.tally.consensus_reached = false ∧ s.tally.decision = none
          ∧ s.tally.confidence = (1:ℚ)/2)
    ∧ (¬ s.config.quorum_threshold ≤
          (s.tallyAcc.approve_weight + s.tallyAcc.reject_weight) / s.totalWeight →
        s.tally.consensus_reached = false ∧ s.tally.decision = none
          ∧ s.tally.confidence =
              (s.tallyAcc.approve_weight + s.tallyAcc.reject_weight) /
                s.totalWeight) := by
  have hlen : ¬ s.voters.length = 0 := by simpa using h
  by_cases hq : s.config.quorum_threshold ≤
      (s.tallyAcc.approve_weight + s.tallyAcc.reject_weight) / s.totalWeight
  · by_cases hra : s.tallyAcc.reject_weight < s.tallyAcc.approve_weight
    · have ht : s.tally = ⟨true, some VoteType.Approve,
          s.tallyAcc.approve_count, s.tallyAcc.reject_count,
          s.tallyAcc.abstain_count, s.voters.length,
          s.tallyAcc.approve_weight /
            (s.tallyAcc.approve_weight + s.tallyAcc.reject_weight),
          s.round⟩ := by
        simp only [ByzantineVoting.tally]
        rw [if_neg hlen, if_pos hq, if_pos hra]
      rw [ht]
      exact ⟨by simp [hq, ne_of_gt hra],
        fun _ _ => ⟨rfl, rfl⟩,
        fun _ har' => absurd har' (lt_asymm hra),
        fun _ he => absurd he (ne_of_gt hra),
        fun hq' => absurd hq hq'⟩
    · by_cases har : s.tallyAcc.approve_weight < s.tallyAcc.reject_weight
      · have ht : s.tally = ⟨true, some VoteType.Reject,
            s.tallyAcc.approve_count, s.tallyAcc.reject_count,
            s.tallyAcc.abstain_count, s.voters.length,
            s.tallyAcc.reject_weight /
              (s.tallyAcc.approve_weight + s.tallyAcc.reject_weight),
            s.round⟩ := by
          simp only [ByzantineVoting.tally]
          rw [if_neg hlen, if_pos hq, if_neg hra, if_pos har]
        rw [ht]
        exact ⟨by simp [hq, ne_of_lt har],
          fun _ hra' => absurd hra' hra,
          fun _ _ => ⟨rfl, rfl⟩,
          fun _ he => absurd he (ne_of_lt har),
          fun hq' => absurd hq hq'⟩
      · have heq : s.tallyAcc.approve_weight = s.tallyAcc.reject_weight :=
          le_antisymm (not_lt.mp hra) (not_lt.mp har)
        have ht : s.tally = ⟨false, none,
            s.tallyAcc.approve_count, s.tallyAcc.reject_count,
            s.tallyAcc.abstain_count, s.voters.length, (1:ℚ)/2, s.round⟩ := by
          simp only [ByzantineVoting.tally]
          rw [if_neg hlen, if_pos hq, if_neg hra, if_neg har]
        rw [ht]
        exact ⟨by simp [heq],
          fun _ hra' => absurd hra' hra,
          fun _ har' => absurd har' har,
          fun _ _ => ⟨rfl, rfl, rfl⟩,
          fun hq' => absurd hq hq'⟩
  · have ht : s.tally = ⟨false, none,
        s.tallyAcc.approve_count, s.tallyAcc.reject_count,
        s.tallyAcc.abstain_count, s.voters.length,
        (s.tallyAcc.approve_weight + s.tallyAcc.reject_weight) / s.totalWeight,
        s.round⟩ := by
      simp only [ByzantineVoting.tally]
      rw [if_neg hlen, if_neg hq]
    rw [ht]
    exact ⟨by simp [hq],
      fun hq' => absurd hq' hq,
      fun hq' => absurd hq' hq,
      fun hq' => absurd hq' hq,
      fun _ => ⟨rfl, rfl, rfl⟩⟩

/-- The spec's example 1: three unit-weight voters, quorum 1/2, ballots
approve / approve / reject. -/
def threeVoterState : ByzantineVoting :=
  let cfg : VotingConfig := ⟨(1:ℚ)/2, 60, false, 3⟩
  let s := (((ByzantineVoting.new cfg).registerVoter ⟨"a", [], 0, 0⟩ 1
    ).registerVoter ⟨"b", [], 0, 0⟩ 1).registerVoter ⟨"c", [], 0, 0⟩ 1
  let s := s.startVote "proposal-1"
  let s := (s.castVote ⟨"a", .Approve, 0, none, none⟩).1
  let s := (s.castVote ⟨"b", .Approve, 0, none, none⟩).1
  (s.castVote ⟨"c", .Reject, 0, none, none⟩).1

/-- Witness for C2: on the three-voter example the tally reaches
consensus on Approve with confidence 2/3. -/
theorem tally_postcondition_witness :
    threeVoterState.tally.consensus_reached = true
    ∧ threeVoterState.tally.decision = some VoteType.Approve
    ∧ threeVoterState.tally.confidence = (2:ℚ)/3 := by
  have h := tally_postcondition threeVoterState (by with_unfolding_all decide)
  refine ⟨h.1.mpr ⟨?_, ?_⟩, ?_, ?_⟩
  · with_unfolding_all decide
  · with_unfolding_all decide
  · exact (h.2.1 (by with_unfolding_all decide) (by with_unfolding_all decide)).1
  · rw [(h.2.1 (by with_unfolding_all decide) (by with_unfolding_all decide)).2]
    with_unfolding_all decide

/-! ### Claim C8 — tally totality and confidence range -/

theorem assocGet_mem (k : String) (v : α) :
    ∀ l : List (String × α), assocGet k l = some v → (k, v) ∈ l
  | [], h => by simp [assocGet] at h
  | (k', v') :: rest, h => by
    by_cases hk : k' = k
    · subst hk
      simp [assocGet] at h
      simp [h]
    · simp only [assocGet, if_neg hk] at h
      exact List.mem_cons_of_mem _ (assocGet_mem k v rest h)

theorem voteWeight_nonneg (s : ByzantineVoting)
    (hw : ∀ p ∈ s.voters, 0 ≤ p.2.weight) (vid : String) :
    0 ≤ s.voteWeight vid := by
  unfold ByzantineVoting.voteWeight
  split
  · cases hget : assocGet vid s.voters with
    | none => simp
    | some vi =>
      simpa using hw (vid, vi) (assocGet_mem vid vi s.voters hget)
  · norm_num

theorem foldl_tallyStep_nonneg (s : ByzantineVoting)
    (hw : ∀ p ∈ s.voters, 0 ≤ p.2.weight) :
    ∀ (votes : List (String × Vote)) (acc : TallyAcc),
      0 ≤ acc.approve_weight → 0 ≤ acc.reject_weight →
      0 ≤ (votes.foldl (tallyStep s) acc).approve_weight
        ∧ 0 ≤ (votes.foldl (tallyStep s) acc).reject_weight
  | [], acc, ha, hr => ⟨ha, hr⟩
  | p :: rest, acc, ha, hr => by
    rw [List.foldl_cons]
    have hwv := voteWeight_nonneg s hw p.1
    refine foldl_tallyStep_nonneg s hw rest (tallyStep s acc p) ?_ ?_ <;>
      unfold tallyStep <;>
      cases p.2.vote_type <;>
      simp <;> positivity

theorem tallyAcc_nonneg (s : ByzantineVoting)
    (hw : ∀ p ∈ s.voters, 0 ≤ p.2.weight) :
    0 ≤ s.tallyAcc.approve_weight ∧ 0 ≤ s.tallyAcc.reject_weight :=
  foldl_tallyStep_nonneg s hw s.votes ⟨0, 0, 0, 0, 0⟩ le_rfl le_rfl

theorem totalWeight_nonneg (s : ByzantineVoting)
    (hw : ∀ p ∈ s.voters, 0 ≤ p.2.weight) : 0 ≤ s.totalWeight := by
  unfold ByzantineVoting.totalWeight
  split
  · refine List.sum_nonneg ?_
    intro x hx
    obtain ⟨p, hp, rfl⟩ := List.mem_map.mp hx
    exact hw p hp
  · positivity

/-- The C8 counterexample state: weighted mode, one registered voter of
weight 0 (a legal clamped weight), a started round and no ballots, so
the total registered weight is 0 and no weight was cast on either
side. -/
def zeroWeightState : ByzantineVoting :=
  ((ByzantineVoting.new ⟨(2:ℚ)/3, 60, true, 3⟩).registerVoter
    ⟨"z", [], 0, 0⟩ 0).startVote "proposal-1"

/-- Claim C8, counterexample: in this reachable state the f32 tally
divides `0.0 / 0.0`, so the participation is NaN, the quorum comparison
is false, and the returned confidence is NaN — not a value in `[0, 1]`.
(The rational reading `tally` collapses exactly this corner to
confidence 0.) -/
theorem tally_weighted_zero_nan :
    zeroWeightState.config.weighted = true
    ∧ zeroWeightState.voters.length = 1
    ∧ zeroWeightState.totalWeight = 0
    ∧ zeroWeightState.tallyF.confidence = F32.nan := by
  with_unfolding_all decide

/-- Claim C8 (amended): for every voting state whose registered weights
lie in `[0, 1]` (as `register_voter` clamps them) and whose quorum
threshold is a fraction (at most 1), `tally` is total: with no
registered voters it returns the neutral non-consensus result with
confidence 0, and its confidence is a finite value in `[0, 1]` — except
in the single corner the counterexample exhibits, where voters are
registered, the total registered weight is 0 (weighted mode, all
weights 0) and zero weight was cast on either side: there the f32 code
computes participation `0.0 / 0.0 = NaN` and returns confidence NaN. -/
theorem tallyF_confidence_range (s : ByzantineVoting)
    (hw : ∀ p ∈ s.voters, 0 ≤ p.2.weight ∧ p.2.weight ≤ 1)
    (hq : s.config.quorum_threshold ≤ 1)
    (hnz : ¬ (s.totalWeight = 0
      ∧ s.tallyAcc.approve_weight + s.tallyAcc.reject_weight = 0
      ∧ s.voters ≠ [])) :
    (s.voters = [] → s.tallyF = ⟨false, none, 0, 0, 0, 0, .fin 0, s.round⟩)
    ∧ ∃ c : ℚ, s.tallyF.confidence = .fin c ∧ 0 ≤ c ∧ c ≤ 1 := by
  have hw0 : ∀ p ∈ s.voters, 0 ≤ p.2.weight := fun p hp => (hw p hp).1
  obtain ⟨ha, hr⟩ := tallyAcc_nonneg s hw0
  have hW := totalWeight_nonneg s hw0
  by_cases hnil : s.voters = []
  · have hlen : s.voters.length = 0 := by simp [hnil]
    have ht : s.tallyF = ⟨false, none, 0, 0, 0, 0, .fin 0, s.round⟩ := by
      simp only [ByzantineVoting.tallyF]
      rw [if_pos hlen]
    exact ⟨fun _ => ht, ⟨0, by rw [ht], le_rfl, by norm_num⟩⟩
  · have hlen : ¬ s.voters.length = 0 := by simpa using hnil
    refine ⟨fun hc => absurd hc hnil, ?_⟩
    simp only [ByzantineVoting.tallyF]
    rw [if_neg hlen]
    by_cases hWz : s.totalWeight = 0
    · have hsum : ¬ s.tallyAcc.approve_weight + s.tallyAcc.reject_weight = 0 :=
        fun hc => hnz ⟨hWz, hc, hnil⟩
      have hsumpos : 0 < s.tallyAcc.approve_weight + s.tallyAcc.reject_weight :=
        lt_of_le_of_ne (by positivity) (Ne.symm hsum)
      have hpart : F32.div
          (s.tallyAcc.approve_weight + s.tallyAcc.reject_weight) s.totalWeight =
          .inf true := by
        simp [F32.div, hWz, hsum, hsumpos]
      rw [hpart,
        if_pos (show F32.leF s.config.quorum_threshold (F32.inf true) = true
          from rfl)]
      by_cases hra : s.tallyAcc.reject_weight < s.tallyAcc.approve_weight
      · rw [if_pos hra]
        refine ⟨s.tallyAcc.approve_weight /
            (s.tallyAcc.approve_weight + s.tallyAcc.reject_weight), ?_, ?_, ?_⟩
        · simp [F32.div, ne_of_gt hsumpos]
        · positivity
        · rw [div_le_one hsumpos]
          exact le_add_of_nonneg_right hr
      · rw [if_neg hra]
        by_cases har : s.tallyAcc.approve_weight < s.tallyAcc.reject_weight
        · rw [if_pos har]
          refine ⟨s.tallyAcc.reject_weight /
              (s.tallyAcc.approve_weight + s.tallyAcc.reject_weight), ?_, ?_, ?_⟩
          · simp [F32.div, ne_of_gt hsumpos]
          · positivity
          · rw [div_le_one hsumpos]
            exact le_add_of_nonneg_left ha
        · rw [if_neg har]
          exact ⟨(1:ℚ)/2, rfl, by norm_num, by norm_num⟩
    · have hWpos : 0 < s.totalWeight := lt_of_le_of_ne hW (Ne.symm hWz)
      have hpart : F32.div
          (s.tallyAcc.approve_weight + s.tallyAcc.reject_weight) s.totalWeight =
          .fin ((s.tallyAcc.approve_weight + s.tallyAcc.reject_weight) /
            s.totalWeight) := by
        simp [F32.div, hWz]
      rw [hpart]
      by_cases hqm : s.config.quorum_threshold ≤
          (s.tallyAcc.approve_weight + s.tallyAcc.reject_weight) / s.totalWeight
      · rw [if_pos (show F32.leF s.config.quorum_threshold
            (F32.fin ((s.tallyAcc.approve_weight + s.tallyAcc.reject_weight) /
              s.totalWeight)) = true by simp [F32.leF, hqm])]
        by_cases hra : s.tallyAcc.reject_weight < s.tallyAcc.approve_weight
        · have hsumpos : 0 < s.tallyAcc.approve_weight + s.tallyAcc.reject_weight :=
            add_pos_of_pos_of_nonneg (lt_of_le_of_lt hr hra) hr
          rw [if_pos hra]
          refine ⟨s.tallyAcc.approve_weight /
              (s.tallyAcc.approve_weight + s.tallyAcc.reject_weight), ?_, ?_, ?_⟩
          · simp [F32.div, ne_of_gt hsumpos]
          · positivity
          · rw [div_le_one hsumpos]
            exact le_add_of_nonneg_right hr
        · rw [if_neg hra]
          by_cases har : s.tallyAcc.approve_weight < s.tallyAcc.reject_weight
          · have hsumpos : 0 < s.tallyAcc.approve_weight + s.tallyAcc.reject_weight :=
              add_pos_of_nonneg_of_pos ha (lt_of_le_of_lt ha har)
            rw [if_pos har]
            refine ⟨s.tallyAcc.reject_weight /
                (s.tallyAcc.approve_weight + s.tallyAcc.reject_weight), ?_, ?_, ?_⟩
            · simp [F32.div, ne_of_gt hsumpos]
            · positivity
            · rw [div_le_one hsumpos]
              exact le_add_of_nonneg_left ha
          · rw [if_neg har]
            exact ⟨(1:ℚ)/2, rfl, by norm_num, by norm_num⟩
      · rw [if_neg (show ¬ F32.leF s.config.quorum_threshold
            (F32.fin ((s.tallyAcc.approve_weight + s.tallyAcc.reject_weight) /
              s.totalWeight)) = true by simp [F32.leF, hqm])]
        refine ⟨(s.tallyAcc.approve_weight + s.tallyAcc.reject_weight) /
            s.totalWeight, rfl, ?_, ?_⟩
        · positivity
        · exact le_trans (le_of_lt (not_le.mp hqm)) hq

/-- Witness for C8 (amended): the default-configuration empty state
tallies to the neutral result with f32 confidence 0, and the three-voter
example yields a finite confidence in `[0, 1]`. -/
theorem tallyF_confidence_range_witness :
    (ByzantineVoting.new VotingConfig.default).tallyF =
        ⟨false, none, 0, 0, 0, 0, .fin 0, 1⟩
    ∧ ∃ c : ℚ, threeVoterState.tallyF.confidence = .fin c ∧ 0 ≤ c ∧ c ≤ 1 := by
  constructor
  · exact (tallyF_confidence_range (ByzantineVoting.new VotingConfig.default)
      (by simp [ByzantineVoting.new])
      (by norm_num [ByzantineVoting.new, VotingConfig.default])
      (by simp [ByzantineVoting.new])).1 rfl
  · exact (tallyF_confidence_range threeVoterState
      (by with_unfolding_all decide)
      (by with_unfolding_all decide)
      (by with_unfolding_all decide)).2

/-! ### Claim C5 — severity tie-break determinism -/

/-- The running maximum/action pair of the severity scan in
`EthicalGuardrail::evaluate`, restricted to one triggered rule. -/
def sevStep (acc : Nat × Option GuardrailAction) (r : GuardrailRule) :
    Nat × Option GuardrailAction :=
  if acc.1 < r.severity then (r.severity, some r.action) else acc

/-- The maximum severity reached by scanning a rule list starting from
`m` (the running `max_severity` of the evaluation loop). -/
def foldMaxSev : List GuardrailRule → Nat → Nat
  | [], m => m
  | r :: t, m => foldMaxSev t (Nat.max m r.severity)

/-- The first rule in the list whose severity equals `M`. -/
def firstWithSev : List GuardrailRule → Nat → Option GuardrailRule
  | [], _ => none
  | r :: t, M => if r.severity = M then some r else firstWithSev t M

theorem le_foldMaxSev : ∀ (t : List GuardrailRule) (m : Nat), m ≤ foldMaxSev t m
  | [], _ => le_rfl
  | r :: t, m =>
    le_trans (Nat.le_max_left m r.severity) (le_foldMaxSev t (Nat.max m r.severity))

theorem foldMaxSev_attained : ∀ (t : List GuardrailRule) (m : Nat),
    foldMaxSev t m = m ∨ ∃ r ∈ t, r.severity = foldMaxSev t m
  | [], _ => Or.inl rfl
  | r :: t, m => by
    rcases foldMaxSev_attained t (Nat.max m r.severity) with h | ⟨r', hr', he⟩
    · by_cases hm : m ≤ r.severity
      · right
        refine ⟨r, List.mem_cons_self r t, ?_⟩
        show r.severity = foldMaxSev t (Nat.max m r.severity)
        rw [h, show Nat.max m r.severity = r.severity from Nat.max_eq_right hm]
      · left
        show foldMaxSev t (Nat.max m r.severity) = m
        rw [h, show Nat.max m r.severity = m from Nat.max_eq_left (le_of_not_le hm)]
    · exact Or.inr ⟨r', List.mem_cons_of_mem _ hr', he⟩

/-- The severity/action projection of the evaluation loop is the
`sevStep` scan of the triggered rules. -/
theorem foldl_evalRule_sev (ctx : Context) (ts : Timestamp) :
    ∀ (rules : List GuardrailRule) (st : EvalState),
      ((rules.foldl (evalRule ctx ts) st).max_severity,
        (rules.foldl (evalRule ctx ts) st).required_action) =
        (rules.filter (fun r => r.isViolated ctx)).foldl sevStep
          (st.max_severity, st.required_action)
  | [], st => rfl
  | r :: rs, st => by
    rw [List.foldl_cons, foldl_evalRule_sev ctx ts rs]
    by_cases h : r.isViolated ctx = true
    · simp only [List.filter_cons, h, if_true, List.foldl_cons]
      congr 1
      by_cases hsev : st.max_severity < r.severity
      · simp [evalRule, h, hsev, sevStep]
      · simp [evalRule, h, hsev, sevStep]
    · simp only [List.filter_cons, h, if_false, Bool.false_eq_true]
      congr 1
      all_goals simp [evalRule, h]

/-- Closed form of the `sevStep` scan: the final maximum is `foldMaxSev`,
and the action is the initial one when no rule exceeds the initial
maximum, else the action of the first rule attaining the final maximum. -/
theorem foldl_sevStep_spec : ∀ (t : List GuardrailRule) (m : Nat)
    (a : Option GuardrailAction),
    t.foldl sevStep (m, a) =
      (foldMaxSev t m,
        if foldMaxSev t m = m then a
        else (firstWithSev t (foldMaxSev t m)).map GuardrailRule.action)
  | [], m, a => by simp [foldMaxSev, firstWithSev]
  | r :: t, m, a => by
    rw [List.foldl_cons]
    by_cases hm : m < r.severity
    · have hstep : sevStep (m, a) r = (r.severity, some r.action) := by
        simp [sevStep, hm]
      have hM : foldMaxSev (r :: t) m = foldMaxSev t r.severity := by
        show foldMaxSev t (Nat.max m r.severity) = _
        rw [show Nat.max m r.severity = r.severity from Nat.max_eq_right hm.le]
      have hMge : r.severity ≤ foldMaxSev t r.severity := le_foldMaxSev t _
      have hne1 : ¬ foldMaxSev t r.severity = m :=
        fun hc => absurd (hc ▸ hMge) (not_le.mpr hm)
      rw [hstep, foldl_sevStep_spec t r.severity (some r.action), hM,
        if_neg hne1]
      by_cases hsevM : r.severity = foldMaxSev t r.severity
      · rw [if_pos hsevM.symm]
        show _ = (_, (firstWithSev (r :: t) (foldMaxSev t r.severity)).map _)
        rw [show firstWithSev (r :: t) (foldMaxSev t r.severity) = some r from by
          simp only [firstWithSev]
          rw [if_pos hsevM]]
        rfl
      · rw [if_neg fun hc => hsevM hc.symm]
        show _ = (_, (firstWithSev (r :: t) (foldMaxSev t r.severity)).map _)
        rw [show firstWithSev (r :: t) (foldMaxSev t r.severity) =
            firstWithSev t (foldMaxSev t r.severity) from by
          simp only [firstWithSev]
          rw [if_neg hsevM]]
    · have hstep : sevStep (m, a) r = (m, a) := by
        simp [sevStep, hm]
      have hM : foldMaxSev (r :: t) m = foldMaxSev t m := by
        show foldMaxSev t (Nat.max m r.severity) = _
        rw [show Nat.max m r.severity = m from Nat.max_eq_left (not_lt.mp hm)]
      rw [hstep, foldl_sevStep_spec t m a, hM]
      by_cases hMm : foldMaxSev t m = m
      · rw [if_pos hMm, if_pos hMm]
      · have hmlt : m < foldMaxSev t m :=
          lt_of_le_of_ne (le_foldMaxSev t m) (Ne.symm hMm)
        have hrne : ¬ r.severity = foldMaxSev t m :=
          fun hc => absurd (hc ▸ not_lt.mp hm) (not_le.mpr hmlt)
        rw [if_neg hMm, if_neg hMm]
        show _ = (_, (firstWithSev (r :: t) (foldMaxSev t m)).map _)
        rw [show firstWithSev (r :: t) (foldMaxSev t m) =
            firstWithSev t (foldMaxSev t m) from by
          simp only [firstWithSev]
          rw [if_neg hrne]]

theorem foldMaxSev_ge : ∀ (t : List GuardrailRule) (m : Nat)
    (r : GuardrailRule), r ∈ t → r.severity ≤ foldMaxSev t m
  | [], _, r, hr => absurd hr (List.not_mem_nil r)
  | r' :: t, m, r, hr => by
    rcases List.mem_cons.mp hr with rfl | hmem
    · exact le_trans (Nat.le_max_right m r.severity)
        (le_foldMaxSev t (Nat.max m r.severity))
    · exact foldMaxSev_ge t (Nat.max m r'.severity) r hmem

theorem firstWithSev_isSome : ∀ (t : List GuardrailRule) (M : Nat)
    (r0 : GuardrailRule), r0 ∈ t → r0.severity = M →
    ∃ r, firstWithSev t M = some r
  | [], _, r0, hmem, _ => absurd hmem (List.not_mem_nil r0)
  | r' :: t, M, r0, hmem, hsev => by
    by_cases h : r'.severity = M
    · exact ⟨r', by simp [firstWithSev, h]⟩
    · rcases List.mem_cons.mp hmem with rfl | hmem'
      · exact absurd hsev h
      · obtain ⟨r, hr⟩ := firstWithSev_isSome t M r0 hmem' hsev
        exact ⟨r, by simp [firstWithSev, h, hr]⟩

/-- Claim C5: whenever at least one rule is triggered (and rule
severities are at least 1, as `with_severity` clamping guarantees), the
`required_action` of `EthicalGuardrail::evaluate` is the action of the
first triggered rule attaining the maximum triggered severity — the
earliest-registered rule wins severity ties — and re-evaluating the same
engine instance on the same context yields the same `required_action`. -/
theorem severity_tiebreak (g : EthicalGuardrail) (context : Context)
    (ts ts' : Timestamp)
    (hsev : ∀ r ∈ g.rules, 1 ≤ r.severity)
    (hne : g.rules.filter (fun r => r.isViolated context) ≠ []) :
    (∃ r, firstWithSev (g.rules.filter (fun r => r.isViolated context))
          (foldMaxSev (g.rules.filter (fun r => r.isViolated context)) 0) = some r
        ∧ (g.evaluate context ts).1.required_action = some r.action)
    ∧ ((g.evaluate context ts).2.evaluate context ts').1.required_action
        = (g.evaluate context ts).1.required_action := by
  have hkey : ∀ (g' : EthicalGuardrail) (ts0 : Timestamp),
      (g'.evaluate context ts0).1.required_action =
        ((g'.rules.filter (fun r => r.isViolated context)).foldl sevStep
          (0, none)).2 := by
    intro g' ts0
    have h := foldl_evalRule_sev context ts0 g'.rules
      ⟨[], [], 0, none, g'.violation_log, g'.stats.violations_detected,
        g'.stats.violations_by_type⟩
    have h2 := congrArg Prod.snd h
    simpa using h2
  have hMne : ¬ foldMaxSev (g.rules.filter (fun r => r.isViolated context)) 0 = 0 := by
    obtain ⟨r0, hr0⟩ :=
      List.exists_mem_of_ne_nil (g.rules.filter (fun r => r.isViolated context)) hne
    have h1 : 1 ≤ r0.severity := hsev r0 (List.mem_of_mem_filter hr0)
    have h2 := foldMaxSev_ge (g.rules.filter (fun r => r.isViolated context)) 0 r0 hr0
    omega
  have hattn := foldMaxSev_attained
    (g.rules.filter (fun r => r.isViolated context)) 0
  rcases hattn with hc | ⟨r0, hr0, hsev0⟩
  · exact absurd hc hMne
  obtain ⟨r, hfws⟩ := firstWithSev_isSome
    (g.rules.filter (fun r => r.isViolated context))
    (foldMaxSev (g.rules.filter (fun r => r.isViolated context)) 0) r0 hr0 hsev0
  have hreq := hkey g ts
  rw [foldl_sevStep_spec, if_neg hMne] at hreq
  constructor
  · refine ⟨r, hfws, ?_⟩
    rw [hreq]
    simp [hfws]
  · have hd := hkey ((g.evaluate context ts).2) ts'
    rw [show ((g.evaluate context ts).2.rules) = g.rules from rfl] at hd
    rw [hd, hkey g ts]

/-- Two rules that both trigger with the same severity 5; the first one
registered requires `Escalate`, the second `Reject`. -/
def tieRuleA : GuardrailRule :=
  ⟨"tie-a", .Safety, [Condition.new "x" "eq" (.num 1)], .Escalate, "first", 5⟩

/-- The second, equally severe rule of the tie-break witness. -/
def tieRuleB : GuardrailRule :=
  ⟨"tie-b", .Privacy, [Condition.new "x" "eq" (.num 1)], .Reject, "second", 5⟩

/-- The tie-break witness engine: `tieRuleA` registered before
`tieRuleB`. -/
def tieGuardrail : EthicalGuardrail :=
  (EthicalGuardrail.new.addRule tieRuleA).addRule tieRuleB

/-- The context triggering both tie rules. -/
def xContext : Context := [("x", JValue.num 1)]

/-- Witness for C5: with two equally severe triggered rules the
first-registered one (Escalate) governs, and re-evaluating the updated
engine instance repeats it. -/
theorem severity_tiebreak_witness :
    (tieGuardrail.evaluate xContext 0).1.required_action =
        some GuardrailAction.Escalate
    ∧ ((tieGuardrail.evaluate xContext 0).2.evaluate xContext 1).1.required_action =
        some GuardrailAction.Escalate := by
  obtain ⟨⟨r, hfws, hreq⟩, hdet⟩ := severity_tiebreak tieGuardrail xContext 0 1
    (by decide)
    (by
      intro hx
      rw [show tieGuardrail.rules.filter (fun r => r.isViolated xContext) =
        [tieRuleA, tieRuleB] from rfl] at hx
      simp at hx)
  have hA : firstWithSev
      (tieGuardrail.rules.filter (fun r => r.isViolated xContext))
      (foldMaxSev (tieGuardrail.rules.filter (fun r => r.isViolated xContext)) 0) =
      some tieRuleA := rfl
  rw [hA] at hfws
  obtain rfl := (Option.some.injEq _ _).mp hfws
  refine ⟨?_, ?_⟩
  · rw [hreq]
    rfl
  · rw [hdet, hreq]
    rfl

/-! ### Claim C3 — decision escalation invariant (corrected) -/

/-- The escalation behaviour of `combine_signals`: a
`RequireApproval`/`Escalate` verdict always escalates, and outside a
`Reject` veto a confidence below `min_confidence` always escalates. -/
theorem combineSignals_escalation (config : EngineConfig)
    (voting : ConsensusResult) (gnn : Option PredictedDecision)
    (guardrails : EthicalEvaluation) (candidates : List DIDKey) :
    ((guardrails.required_action = some GuardrailAction.RequireApproval
        ∨ guardrails.required_action = some GuardrailAction.Escalate) →
      (combineSignals config voting gnn guardrails candidates).2.2.2 = true)
    ∧ (guardrails.required_action ≠ some GuardrailAction.Reject →
        (combineSignals config voting gnn guardrails candidates).2.2.1 <
          config.min_confidence →
        (combineSignals config voting gnn guardrails candidates).2.2.2 = true) := by
  unfold combineSignals
  cases hra : guardrails.required_action with
  | none =>
    refine ⟨fun h => ?_, fun _ hlt => ?_⟩
    · rcases h with h | h <;> simp at h
    · exact decide_eq_true hlt
  | some a =>
    cases a with
    | Approve =>
      refine ⟨fun h => ?_, fun _ hlt => ?_⟩
      · rcases h with h | h <;> simp at h
      · exact decide_eq_true hlt
    | Reject =>
      refine ⟨fun h => ?_, fun habs _ => ?_⟩
      · rcases h with h | h <;> simp at h
      · exact absurd rfl habs
    | RequireApproval => exact ⟨fun _ => rfl, fun _ _ => rfl⟩
    | Escalate => exact ⟨fun _ => rfl, fun _ _ => rfl⟩

/-- Claim C3 (amended): `requires_human_approval` is true whenever the
guardrail verdict is `RequireApproval` or `Escalate`, and whenever the
verdict is not a `Reject` veto and the decision confidence is below
`min_confidence`. Under a `Reject` veto the flag is `false` even when the
risk-score confidence is below the threshold (see the counterexample). -/
theorem escalation_invariant_amended (e : DecisionEngine)
    (intent : SemanticIntent) (candidates : List DIDKey) (votes : List Vote)
    (gnnRec : Option PredictedDecision) (decisionId : String) (ts : Timestamp) :
    (((e.makeDecision intent candidates votes gnnRec decisionId
          ts).2.1.guardrail_check.required_action =
            some GuardrailAction.RequireApproval
        ∨ (e.makeDecision intent candidates votes gnnRec decisionId
          ts).2.1.guardrail_check.required_action =
            some GuardrailAction.Escalate) →
      (e.makeDecision intent candidates votes gnnRec decisionId
        ts).1.requires_human_approval = true)
    ∧ ((e.makeDecision intent candidates votes gnnRec decisionId
          ts).2.1.guardrail_check.required_action ≠ some GuardrailAction.Reject →
        (e.makeDecision intent candidates votes gnnRec decisionId
          ts).1.confidence < e.config.min_confidence →
        (e.makeDecision intent candidates votes gnnRec decisionId
          ts).1.requires_human_approval = true) := by
  simp only [DecisionEngine.makeDecision]
  exact combineSignals_escalation e.config _ gnnRec _ candidates

/-- The counterexample rule: a severity-3 `Reject` rule matched by any
normal-priority intent (`impact` is 0.5). -/
def lowSevRejectRule : GuardrailRule :=
  ((GuardrailRule.new "low-sev-reject" .Safety .Reject
    "Reject normal-impact intents").withCondition
    (Condition.new "impact" "eq" (.num ((1:ℚ)/2)))).withSeverity 3

/-- The counterexample engine: default configuration and rules, one
registered voter, plus the severity-3 reject rule. -/
def lowSevEngine : DecisionEngine :=
  let e := DecisionEngine.new EngineConfig.default
  { e with
    voting := e.voting.registerVoter ⟨"v1", [], 0, 0⟩ 1
    guardrails := e.guardrails.addRule lowSevRejectRule }

/-- Claim C3, counterexample: this `make_decision` run vetoes through the
severity-3 rule, so its confidence is the risk score 0.3 < 0.5 =
`min_confidence`, no RequireApproval/Escalate action fired (the only
violation is the Reject rule), and yet `requires_human_approval` is
`false` — refuting the claim that a sub-threshold confidence always sets
the flag. -/
theorem escalation_invariant_counterexample :
    (lowSevEngine.makeDecision normalIntent [] [v1ApproveVote] none "d-1"
        0).1.requires_human_approval = false
    ∧ (lowSevEngine.makeDecision normalIntent [] [v1ApproveVote] none "d-1"
        0).1.confidence < lowSevEngine.config.min_confidence
    ∧ (lowSevEngine.makeDecision normalIntent [] [v1ApproveVote] none "d-1"
        0).2.1.guardrail_check.required_action ≠
          some GuardrailAction.RequireApproval
    ∧ (lowSevEngine.makeDecision normalIntent [] [v1ApproveVote] none "d-1"
        0).2.1.guardrail_check.required_action ≠ some GuardrailAction.Escalate
    ∧ (lowSevEngine.makeDecision normalIntent [] [v1ApproveVote] none "d-1"
        0).2.1.guardrail_check.violations.map GuardrailRule.rule_id =
          ["low-sev-reject"] := by
  with_unfolding_all decide

/-- The amended-claim witness engine: default rules, one voter. -/
def approvalEngine : DecisionEngine :=
  let e := DecisionEngine.new EngineConfig.default
  { e with voting := e.voting.registerVoter ⟨"v1", [], 0, 0⟩ 1 }

/-- A critical-priority intent with an empty action string, firing the
default transparency rule (RequireApproval). -/
def criticalIntent : SemanticIntent :=
  ⟨"p-2", .Data, "", none, [], [], .Critical, "s", [], 0⟩

/-- Witness for C3 (amended): a fired transparency rule
(RequireApproval) makes the decision require human approval. -/
theorem escalation_invariant_amended_witness :
    (approvalEngine.makeDecision criticalIntent [] [v1ApproveVote] none "d-2"
        0).1.requires_human_approval = true :=
  (escalation_invariant_amended approvalEngine criticalIntent [] [v1ApproveVote]
    none "d-2" 0).1 (Or.inl (by with_unfolding_all decide))

end Hido
